import Mathlib

/-!
Verification of the patch-application library (pkg/patch/apply.go).

The development shallowly embeds the Go code: Go struct types and values
become mutual inductive types, the dynamic patch values (the
map[string]interface{} obtained from JSON decoding) become a sum type, and
the reflective Apply function becomes a structurally recursive function
over that sum type.  Machine integers are modelled as Int (the library
performs no arithmetic, only conversions), and JSON numbers (Go float64)
are modelled as Int as well, restricted to integral values - every claim
only involves integral numbers, and on integral values Go's float64
equality and float64-to-integer conversion agree with the Int model.

Modelling notes, recorded once here:
* reflect.DeepEqual(x, y) on values of different dynamic types is false;
  the dynamic values produced by JSON decoding have types
  nil/bool/float64/string/[]interface{}/map[string]interface{}, none of
  which equals a destination field type other than in the scalar cases
  spelled out in deepEq below.
* Pointer-typed destination fields in this library point to structs
  (that is the only shape the code handles without panicking), and a
  dynamic patch value can never be a Go struct of the target's type, so a
  pointer-shaped patch value is never convertible to, nor deeply equal
  to, any modelled destination field; canConvert and deepEq reflect that.
* The embedding is value-semantic: a by-value struct field that shares a
  pointee with another field (aliasing) is not representable.  The Go
  tests and every claim are alias-free.
* ApplyOut.panicked models a Go runtime panic (reflect.Value.Len or
  CanConvert on the zero Value, reflect.Value.Set on unassignable types,
  structs.New on a non-struct).
* fatih/structs: Struct.Fields() enumerates all declared fields in
  definition order (it only omits fields carrying a tag named "structs"
  with value "-", which the modelled records never use); Field.Set
  returns the error "field is not settable" when the underlying value is
  not addressable (the case when Apply recursed into a by-value struct
  field, whose Value() is an interface copy); Field.IsZero on a pointer
  field tests for nil.
-/

mutual
/-- A Go destination-field type: scalars, named integer types (enums),
slices, pointers and structs.  Struct field lists carry the Go
identifier, the json tag string, the exported flag and the field type. -/
inductive GoTy : Type where
  | tyStr : GoTy
  | tyBool : GoTy
  | tyFloat : GoTy
  | tyInt (name : String) : GoTy
  | tySlice (elem : GoTy) : GoTy
  | tyPtr (pointee : GoTy) : GoTy
  | tyStruct (fields : FieldTys) : GoTy

/-- The declared fields of a Go struct type, in definition order. -/
inductive FieldTys : Type where
  | ftnil : FieldTys
  | ftcons (goName tag : String) (exported : Bool) (ty : GoTy) (rest : FieldTys) : FieldTys
end

mutual
/-- A Go value of one of the modelled types.  Slices carry their element
type (reflect.TypeOf of a slice value exposes it even when the slice is
empty) and pointers carry their pointee type (needed to allocate a fresh
zero instance for a nil pointer). -/
inductive GoVal : Type where
  | vStr (s : String) : GoVal
  | vBool (b : Bool) : GoVal
  | vFloat (x : Int) : GoVal
  | vInt (name : String) (n : Int) : GoVal
  | vSlice (elem : GoTy) (elems : GoVals) : GoVal
  | vPtrNil (pointee : GoTy) : GoVal
  | vPtrSome (pointee : GoTy) (val : GoVal) : GoVal
  | vStruct (fields : FieldVals) : GoVal

/-- Elements of a Go slice value. -/
inductive GoVals : Type where
  | gnil : GoVals
  | gcons (v : GoVal) (rest : GoVals) : GoVals

/-- The fields of a Go struct value, in definition order, each with its
Go identifier, json tag, exported flag and current value. -/
inductive FieldVals : Type where
  | fnil : FieldVals
  | fcons (goName tag : String) (exported : Bool) (v : GoVal) (rest : FieldVals) : FieldVals
end

mutual
/-- A dynamic patch value (Go interface{} as produced by json.Unmarshal,
plus the pointer case a caller can build by hand): nil, bool, float64,
string, a pointer, []interface{} or map[string]interface{}. -/
inductive DynVal : Type where
  | dNull : DynVal
  | dBool (b : Bool) : DynVal
  | dNum (x : Int) : DynVal
  | dStr (s : String) : DynVal
  | dPtr (v : DynVal) : DynVal
  | dArr (es : DynList) : DynVal
  | dMap (m : Patch) : DynVal

/-- The elements of a dynamic []interface{} value. -/
inductive DynList : Type where
  | dnil : DynList
  | dcons (v : DynVal) (rest : DynList) : DynList

/-- A patch mapping: an association list of external field name to
dynamic value.  Go map keys are unique; theorems that need uniqueness
take it as a hypothesis (wfPatch). -/
inductive Patch : Type where
  | pnil : Patch
  | pcons (key : String) (v : DynVal) (rest : Patch) : Patch
end

/-- Outcome of Apply: a runtime panic, or the returned (changed, err)
pair together with the final field values of the target struct. -/
inductive ApplyOut : Type where
  | panicked : ApplyOut
  | res (changed : Bool) (err : Option String) (fields : FieldVals) : ApplyOut

/-- Outcome of the inner loop over the elements of a sequence patch. -/
inductive SliceOut : Type where
  | spanic : SliceOut
  | serr (msg : String) : SliceOut
  | sok (elems : GoVals) : SliceOut

/-- Outcome of processing a single patch entry: a panic, an error return
(with the change-flag delta the entry contributed and the struct state at
the moment of the error), or success. -/
inductive StepOut : Type where
  | stPanic : StepOut
  | stErr (msg : String) (dc : Bool) (s : FieldVals) : StepOut
  | stOk (dc : Bool) (s : FieldVals) : StepOut

mutual
/-- Type identity, as used by reflect for convertibility/assignability. -/
def tyEq : GoTy → GoTy → Bool
  | .tyStr, .tyStr => true
  | .tyBool, .tyBool => true
  | .tyFloat, .tyFloat => true
  | .tyInt a, .tyInt b => a == b
  | .tySlice a, .tySlice b => tyEq a b
  | .tyPtr a, .tyPtr b => tyEq a b
  | .tyStruct a, .tyStruct b => ftyEq a b
  | _, _ => false

def ftyEq : FieldTys → FieldTys → Bool
  | .ftnil, .ftnil => true
  | .ftcons n1 t1 e1 ty1 r1, .ftcons n2 t2 e2 ty2 r2 =>
      n1 == n2 && t1 == t2 && e1 == e2 && tyEq ty1 ty2 && ftyEq r1 r2
  | _, _ => false
end

/-- The characters of a tag before its first comma. -/
def cutCommaList : List Char → List Char
  | [] => []
  | c :: rest => if c = ',' then [] else c :: cutCommaList rest

/-- strings.Cut(tag, ",") - the portion of the tag before the first
comma, or the whole tag when it has no comma. -/
def cutComma (s : String) : String :=
  String.mk (cutCommaList s.data)

/-- The external name a field answers to: the json tag with anything
from the first comma on stripped, or the Go identifier when no tag is
declared (findField in apply.go). -/
def extName (goName tag : String) : String :=
  if tag == "" then goName else cutComma tag

/-- findField: walk the declared fields in definition order; a field
matches when its external name equals the requested name; a match on a
non-exported field is skipped and the search continues. -/
def findFieldV : FieldVals → String → Option GoVal
  | .fnil, _ => none
  | .fcons n tag ex v rest, name =>
      if extName n tag == name && ex then some v
      else findFieldV rest name

/-- Field.Set through the descriptor findField returned: replace the
value of the first exported field whose external name matches. -/
def setFieldV : FieldVals → String → GoVal → FieldVals
  | .fnil, _, _ => .fnil
  | .fcons n tag ex v rest, name, nv =>
      if extName n tag == name && ex then .fcons n tag ex nv rest
      else .fcons n tag ex v (setFieldV rest name nv)

mutual
/-- reflect.New: the zero value of a Go type (the zero slice is nil;
nil and empty slices are conflated, which is observation-equivalent
here: Apply never compares two destination slices). -/
def zeroVal : GoTy → GoVal
  | .tyStr => .vStr ""
  | .tyBool => .vBool false
  | .tyFloat => .vFloat 0
  | .tyInt n => .vInt n 0
  | .tySlice t => .vSlice t .gnil
  | .tyPtr t => .vPtrNil t
  | .tyStruct fs => .vStruct (zeroFields fs)

def zeroFields : FieldTys → FieldVals
  | .ftnil => .fnil
  | .ftcons n tag ex t rest => .fcons n tag ex (zeroVal t) (zeroFields rest)
end

mutual
/-- reflect.TypeOf of a destination value. -/
def typeOfV : GoVal → GoTy
  | .vStr _ => .tyStr
  | .vBool _ => .tyBool
  | .vFloat _ => .tyFloat
  | .vInt n _ => .tyInt n
  | .vSlice t _ => .tySlice t
  | .vPtrNil t => .tyPtr t
  | .vPtrSome t _ => .tyPtr t
  | .vStruct fs => .tyStruct (typesOfF fs)

def typesOfF : FieldVals → FieldTys
  | .fnil => .ftnil
  | .fcons n tag ex v rest => .ftcons n tag ex (typeOfV v) (typesOfF rest)
end

/-- reflect.ValueOf(value).CanConvert(dstType) for a dynamic patch
value.  none models the panic on the zero Value (value nil).  A string
is not convertible to any numeric type and a float64 is not convertible
to string; []interface{} and map[string]interface{} are convertible only
to their own types, which are never destination field types; a
pointer-shaped dynamic value is never convertible to a modelled field
type (see the modelling notes at the top of the file). -/
def canConvert : DynVal → GoTy → Option Bool
  | .dNull, _ => none
  | .dStr _, .tyStr => some true
  | .dStr _, _ => some false
  | .dNum _, .tyInt _ => some true
  | .dNum _, .tyFloat => some true
  | .dNum _, _ => some false
  | .dBool _, .tyBool => some true
  | .dBool _, _ => some false
  | .dPtr _, _ => some false
  | .dArr _, _ => some false
  | .dMap _, _ => some false

/-- reflect.Value.Convert on the cases canConvert accepts (the catch-all
is never reached from Apply, which converts only after CanConvert). -/
def convertTy : DynVal → GoTy → GoVal
  | .dStr s, .tyStr => .vStr s
  | .dNum x, .tyInt n => .vInt n x
  | .dNum x, .tyFloat => .vFloat x
  | .dBool b, .tyBool => .vBool b
  | _, t => zeroVal t

/-- reflect.DeepEqual(value, dstValue): the raw dynamic value against
the current typed field value.  Values of different dynamic types are
never deeply equal, so only the three same-type scalar cases can hold;
in particular a float64 from JSON is never deeply equal to an integer
field value, and array/map/nil/pointer patch values are never deeply
equal to any modelled field value. -/
def deepEq : DynVal → GoVal → Bool
  | .dStr s, .vStr t => s == t
  | .dBool a, .vBool b => a == b
  | .dNum x, .vFloat y => x == y
  | _, _ => false

/-- Length of a dynamic array. -/
def dynLength : DynList → Nat
  | .dnil => 0
  | .dcons _ rest => dynLength rest + 1

/-- Number of entries of a patch mapping. -/
def patchLength : Patch → Nat
  | .pnil => 0
  | .pcons _ _ rest => patchLength rest + 1

/-- reflect.ValueOf(value).Len(): defined for strings, slices and maps;
none models the panic on every other kind (including the zero Value). -/
def dynLen : DynVal → Option Nat
  | .dStr s => some s.length
  | .dArr es => some (dynLength es)
  | .dMap m => some (patchLength m)
  | _ => none

mutual
/-- One iteration of the Apply loop (apply.go lines 19-132) for a single
patch entry (key, value), against the current struct state s.  addr
records whether the target struct is addressable (true when Apply was
handed a pointer, false when Apply recursed into a by-value struct
field, whose fields Field.Set refuses to write).

The Go branch "if !isSrcValueAStruct && dstKind == reflect.Struct" only
assigns err without returning; on every continuation of that path the
error is overwritten by the CanConvert failure below (no dynamic value is
convertible to a struct type), so the assignment is observationally dead
and has no counterpart here. -/
def applyStep (addr : Bool) (s : FieldVals) (key : String) (value : DynVal) : StepOut :=
  match findFieldV s key with
  | none => .stOk false s
  | some fld =>
    match value with
    | .dMap m =>
      match fld with
      | .vPtrNil pt =>
        -- recursive for a nil value of a pointer to struct: allocate a
        -- fresh zero pointee, apply the nested mapping to it, then Set.
        match pt with
        | .tyStruct fts =>
          match applyEntries true false (zeroFields fts) m with
          | .panicked => .stPanic
          | .res _ (some msg) _ => .stErr msg false s
          | .res ic none z =>
            if addr then .stOk ic (setFieldV s key (.vPtrSome pt (.vStruct z)))
            else .stErr "field is not settable" false s
        | _ => .stPanic  -- structs.New inside the recursive Apply panics on a non-struct pointee
      | .vStruct inner =>
        -- recursive for a struct held by value: structs.New receives an
        -- interface copy of the field, so the recursion runs on an
        -- unaddressable copy and its resulting field values are discarded.
        match applyEntries false false inner m with
        | .panicked => .stPanic
        | .res _ (some msg) _ => .stErr msg false s
        | .res ic none _ => .stOk ic s
      | .vPtrSome pt pv =>
        match pv with
        | .vStruct inner =>
          -- recursive for a pointer to an existing struct: the recursion
          -- mutates the pointee in place, also when it ends in an error.
          match applyEntries true false inner m with
          | .panicked => .stPanic
          | .res _ (some msg) z => .stErr msg false (setFieldV s key (.vPtrSome pt (.vStruct z)))
          | .res ic none z => .stOk ic (setFieldV s key (.vPtrSome pt (.vStruct z)))
        | _ =>
          -- a mapping against a pointer whose pointee is not a struct
          -- falls through in Go to the DeepEqual check and the CanConvert
          -- failure; this copy of the fallthrough keeps the match on the
          -- recursion argument at the outermost level.
          match canConvert (.dMap m) (typeOfV (.vPtrSome pt pv)) with
          | none => .stPanic
          | some false =>
            .stErr ("can\x27t convert " ++ key ++ " to dst type") (!(deepEq (.dMap m) (.vPtrSome pt pv))) s
          | some true =>
            if addr then
              .stOk (!(deepEq (.dMap m) (.vPtrSome pt pv)))
                (setFieldV s key (convertTy (.dMap m) (typeOfV (.vPtrSome pt pv))))
            else .stErr "field is not settable" (!(deepEq (.dMap m) (.vPtrSome pt pv))) s
      | .vSlice elemTy ge =>
        -- a mapping against a slice field falls through in Go to the
        -- sequence branch: Len of a map succeeds and the []interface{}
        -- assertion fails with the "is not an array" error.
        match dynLen (.dMap m) with
        | none => .stPanic
        | some _ => .stErr (key ++ " is not an array") (!(deepEq (.dMap m) (.vSlice elemTy ge))) s
      | fld2 =>
        -- a mapping against a scalar field falls through in Go to the
        -- DeepEqual check and the conversion attempt (CanConvert of a map
        -- to a scalar type is false).
        match canConvert (.dMap m) (typeOfV fld2) with
        | none => .stPanic
        | some false => .stErr ("can\x27t convert " ++ key ++ " to dst type") (!(deepEq (.dMap m) fld2)) s
        | some true =>
          if addr then .stOk (!(deepEq (.dMap m) fld2)) (setFieldV s key (convertTy (.dMap m) (typeOfV fld2)))
          else .stErr "field is not settable" (!(deepEq (.dMap m) fld2)) s
    | .dArr es =>
      -- an array value: the DeepEqual dirty check (inlined at each use),
      -- then the sequence treatment for a slice field (srcValue.Len() of
      -- an array succeeds and the []interface{} assertion succeeds) or
      -- the conversion attempt for any other field.
      match fld with
      | .vSlice elemTy ge =>
        match dynLen (.dArr es) with
        | none => .stPanic
        | some _ =>
          match sliceLoop key elemTy elemTy es with
          | .spanic => .stPanic
          | .serr msg => .stErr msg (!(deepEq (.dArr es) (.vSlice elemTy ge))) s
          | .sok newElems =>
            if addr then
              .stOk (!(deepEq (.dArr es) (.vSlice elemTy ge))) (setFieldV s key (.vSlice elemTy newElems))
            else .stErr "field is not settable" (!(deepEq (.dArr es) (.vSlice elemTy ge))) s
      | _ =>
        match canConvert (.dArr es) (typeOfV fld) with
        | none => .stPanic
        | some false => .stErr ("can\x27t convert " ++ key ++ " to dst type") (!(deepEq (.dArr es) fld)) s
        | some true =>
          if addr then .stOk (!(deepEq (.dArr es) fld)) (setFieldV s key (convertTy (.dArr es) (typeOfV fld)))
          else .stErr "field is not settable" (!(deepEq (.dArr es) fld)) s
    | _ =>
      -- a scalar (or nil, or pointer) value:
      -- if !reflect.DeepEqual(value, dstValue) { changed = true }
      -- (inlined at each use) and then the sequence or scalar treatment.
      -- Against a slice field, srcValue.Len() runs before the
      -- []interface{} assertion and panics when the value's kind has no
      -- length (nil, number, bool, pointer); a string has a length and
      -- reaches the failing assertion.
      match fld with
      | .vSlice _ _ =>
        match dynLen value with
        | none => .stPanic
        | some _ => .stErr (key ++ " is not an array") (!(deepEq value fld)) s
      | _ =>
        match canConvert value (typeOfV fld) with
        | none => .stPanic
        | some false => .stErr ("can\x27t convert " ++ key ++ " to dst type") (!(deepEq value fld)) s
        | some true =>
          if addr then .stOk (!(deepEq value fld)) (setFieldV s key (convertTy value (typeOfV fld)))
          else .stErr "field is not settable" (!(deepEq value fld)) s
termination_by structural value

/-- The Apply loop over the entries of the patch mapping, accumulating
the change flag; the first error or panic aborts the call. -/
def applyEntries (addr changed : Bool) (s : FieldVals) (p : Patch) : ApplyOut :=
  match p with
  | .pnil => .res changed none s
  | .pcons key value rest =>
    match applyStep addr s key value with
    | .stPanic => .panicked
    | .stErr msg dc s2 => .res (changed || dc) (some msg) s2
    | .stOk dc s2 => applyEntries addr (changed || dc) s2 rest
termination_by structural p

/-- The loop over the elements of a sequence patch (apply.go lines
86-111).  ty0 is the slot type of the freshly made destination slice;
cur models the local variable dstElemType, which the struct-element
branch overwrites with its pointee for all later iterations.  Storing a
freshly allocated *T, or a scalar converted to cur, into a slot whose
type differs panics at reflect.Value.Set. -/
def sliceLoop (key : String) (ty0 cur : GoTy) (ds : DynList) : SliceOut :=
  match ds with
  | .dnil => .sok .gnil
  | .dcons e rest =>
    match e with
    | .dMap m =>
      match (match cur with | .tyPtr p => p | t => t) with
      | .tyStruct fts =>
        match applyEntries true false (zeroFields fts) m with
        | .panicked => .spanic
        | .res _ (some msg) _ => .serr msg
        | .res _ none z =>
          if tyEq ty0 (.tyPtr (.tyStruct fts)) then
            match sliceLoop key ty0 (.tyStruct fts) rest with
            | .sok tailv => .sok (.gcons (.vPtrSome (.tyStruct fts) (.vStruct z)) tailv)
            | other => other
          else .spanic
      | _ => .spanic  -- structs.New inside the recursive Apply panics on a non-struct element type
    | _ =>
      match canConvert e cur with
      | none => .spanic
      | some false => .serr ("can\x27t convert " ++ key ++ " to dst type")
      | some true =>
        if tyEq cur ty0 then
          match sliceLoop key ty0 cur rest with
          | .sok tailv => .sok (.gcons (convertTy e cur) tailv)
          | other => other
        else .spanic
termination_by structural ds
end

/-- Apply(target, patch) for an addressable target (the callers pass a
pointer to the destination record): returns the (changed, err) pair and
the final field values. -/
def applyGo (s : FieldVals) (p : Patch) : ApplyOut :=
  applyEntries true false s p

/-- Concatenation of patch mappings. -/
def pappend : Patch → Patch → Patch
  | .pnil, q => q
  | .pcons k v rest, q => .pcons k v (pappend rest q)

/-- Does the patch mapping contain an entry with the given key? -/
def patchHasKey : Patch → String → Bool
  | .pnil, _ => false
  | .pcons k _ rest, k2 => k == k2 || patchHasKey rest k2

/-- The key is absent from the patch mapping. -/
def keyNotIn (k : String) : Patch → Bool
  | .pnil => true
  | .pcons k2 _ rest => !(k2 == k) && keyNotIn k rest

mutual
/-- A well-formed patch mapping: its keys are pairwise distinct (a Go
map cannot hold a key twice) and nested mappings are well-formed. -/
def wfPatch : Patch → Bool
  | .pnil => true
  | .pcons k v rest => keyNotIn k rest && wfVal v && wfPatch rest
termination_by structural p => p

/-- Well-formedness of a dynamic value: nested mappings have distinct
keys.  Mappings inside arrays are applied to freshly allocated elements
and their change flags are discarded by the code, so they need no
constraint. -/
def wfVal : DynVal → Bool
  | .dMap m => wfPatch m
  | _ => true
termination_by structural v => v
end

mutual
/-- The raw dirty check the merge engine performs, as a pure function of
the pre-call struct and the patch: an entry counts as a difference when
its raw dynamic value is not deeply equal to the resolved field's
pre-call value, where a nested record mapping recurses (against the
pointee, the by-value copy, or the fresh zero instance a nil pointer
field would receive).  This is the specification against which Apply's
accumulated change flag is proved equal on error-free runs. -/
def rawChanged (s : FieldVals) : Patch → Bool
  | .pnil => false
  | .pcons k v rest => rawEntry s k v || rawChanged s rest
termination_by structural p => p

/-- The contribution of a single patch entry to the raw dirty check. -/
def rawEntry (s : FieldVals) (k : String) (v : DynVal) : Bool :=
  match findFieldV s k with
  | none => false
  | some fld =>
    match v with
    | .dMap m =>
      match fld with
      | .vPtrNil (.tyStruct fts) => rawChanged (zeroFields fts) m
      | .vStruct inner => rawChanged inner m
      | .vPtrSome _ (.vStruct inner) => rawChanged inner m
      | fld2 => !(deepEq (.dMap m) fld2)
    | _ => !(deepEq v fld)
termination_by structural v
end

/-- Every key of the patch mapping fails to resolve to a field. -/
def allKeysUnknown (s : FieldVals) : Patch → Bool
  | .pnil => true
  | .pcons k _ rest => (findFieldV s k).isNone && allKeysUnknown s rest

/-- Every element of a dynamic array is convertible to the type t (in
particular none is a mapping: a mapping is convertible to no field
type). -/
def allScalarConv (t : GoTy) : DynList → Bool
  | .dnil => true
  | .dcons e rest => (canConvert e t == some true) && allScalarConv t rest

/-- Element-wise conversion of a dynamic array to the type t. -/
def convList (t : GoTy) : DynList → GoVals
  | .dnil => .gnil
  | .dcons e rest => .gcons (convertTy e t) (convList t rest)

/-- Length of a Go slice value. -/
def goLength : GoVals → Nat
  | .gnil => 0
  | .gcons _ rest => goLength rest + 1

/-- The fields of a struct value as a plain list of
(identifier, tag, exported, value) tuples. -/
def fieldsList : FieldVals → List (String × String × Bool × GoVal)
  | .fnil => []
  | .fcons n tag ex v rest => (n, tag, ex, v) :: fieldsList rest

/-- A record with a single integer field Salary (json tag "salary"). -/
def salaryRec (n : Int) : FieldVals := .fcons "Salary" "salary" true (.vInt "int" n) .fnil

/-- A three-field record as in the Go tests. -/
def anakinRec : FieldVals :=
  .fcons "FirstName" "first_name" true (.vStr "Anakin")
  (.fcons "LastName" "last_name" true (.vStr "Skywalker")
  (.fcons "Salary" "salary" true (.vInt "int" 123) .fnil))

/-- The person record type of the Go tests. -/
def personT : FieldTys :=
  .ftcons "FirstName" "first_name" true .tyStr
  (.ftcons "LastName" "last_name" true .tyStr
  (.ftcons "Position" "position" true .tyStr .ftnil))

/-- A record with a nil pointer-to-person field and a salary. -/
def contactNilRec : FieldVals :=
  .fcons "Contact" "contact" true (.vPtrNil (.tyStruct personT))
  (.fcons "Salary" "salary" true (.vInt "int" 123) .fnil)

/-- The nested patch of the TestApplyNilSubStructs test. -/
def contactPatch : Patch :=
  .pcons "first_name" (.dStr "Darth") (.pcons "last_name" (.dStr "Vader") .pnil)

/-- The person the nested apply of contactPatch produces from zero. -/
def vaderZ : FieldVals :=
  .fcons "FirstName" "first_name" true (.vStr "Darth")
  (.fcons "LastName" "last_name" true (.vStr "Vader")
  (.fcons "Position" "position" true (.vStr "") .fnil))

/-- A record with a single []string field Characters. -/
def charsRec : FieldVals :=
  .fcons "Characters" "characters" true
    (.vSlice .tyStr (.gcons (.vStr "Anakin") .gnil)) .fnil

/-- A record whose Ps field is a slice of by-value person records. -/
def byValueSliceRec : FieldVals :=
  .fcons "Ps" "ps" true (.vSlice (.tyStruct personT) .gnil) .fnil

/-- A record whose Ps field is a slice of pointers to person records. -/
def ptrSliceRec : FieldVals :=
  .fcons "Ps" "ps" true (.vSlice (.tyPtr (.tyStruct personT)) .gnil) .fnil

/-- The shape of a dynamic value the scalar conversion path handles:
bool, number, string or pointer (not nil, not an array, not a mapping). -/
def isScalarShape : DynVal → Bool
  | .dBool _ => true
  | .dNum _ => true
  | .dStr _ => true
  | .dPtr _ => true
  | _ => false

/-- The shape of a scalar destination field: string, bool, float or
(named) integer. -/
def isScalarField : GoVal → Bool
  | .vStr _ => true
  | .vBool _ => true
  | .vFloat _ => true
  | .vInt _ _ => true
  | _ => false

/-- The record of TestApplyDetectsWrongType with a name field added. -/
def nameSalaryRec : FieldVals :=
  .fcons "Name" "name" true (.vStr "Anakin")
  (.fcons "Salary" "salary" true (.vInt "int" 123) .fnil)

mutual
/-- Type identity is reflexive. -/
theorem tyEq_refl : (t : GoTy) → tyEq t t = true
  | .tyStr => rfl
  | .tyBool => rfl
  | .tyFloat => rfl
  | .tyInt a => by simp [tyEq]
  | .tySlice a => by simp [tyEq, tyEq_refl a]
  | .tyPtr a => by simp [tyEq, tyEq_refl a]
  | .tyStruct fs => by simp [tyEq, ftyEq_refl fs]
termination_by structural t => t

theorem ftyEq_refl : (fs : FieldTys) → ftyEq fs fs = true
  | .ftnil => rfl
  | .ftcons n t e ty r => by simp [ftyEq, tyEq_refl ty, ftyEq_refl r]
termination_by structural fs => fs
end

/-- Setting one field leaves the resolution of every other name intact. -/
theorem findFieldV_set_ne : (s : FieldVals) → ∀ (k k2 : String) (nv : GoVal), k2 ≠ k →
    findFieldV (setFieldV s k nv) k2 = findFieldV s k2
  | .fnil, _, _, _, _ => rfl
  | .fcons n tag ex v rest, k, k2, nv, h => by
    by_cases hm : (extName n tag == k && ex) = true
    · have hne : (extName n tag == k2) = false := by
        rcases (Bool.and_eq_true _ _).mp hm with ⟨h1, _⟩
        have hx : extName n tag = k := by simpa using h1
        simp [hx, (by simpa using h.symm : ¬ k = k2)]
      simp [setFieldV, hm, findFieldV, hne]
    · simp [setFieldV, hm, findFieldV, findFieldV_set_ne rest k k2 nv h]
termination_by structural s => s

/-- A successful step writes (at most) the resolved field: every other
name still resolves to its previous value. -/
theorem applyStep_ok_frame (addr : Bool) (s : FieldVals) (k : String) (v : DynVal)
    (dc : Bool) (s2 : FieldVals) (h : applyStep addr s k v = .stOk dc s2) :
    ∀ k2, k2 ≠ k → findFieldV s2 k2 = findFieldV s k2 := by
  intro k2 hk
  unfold applyStep at h
  repeat' split at h
  all_goals (try cases h)
  all_goals (first | rfl | (exact findFieldV_set_ne s k k2 _ hk))

/-- A failing step also writes (at most) the resolved field (the pointee
of a pointer field keeps the mutations a failing nested apply already
committed): every other name still resolves to its previous value. -/
theorem applyStep_err_frame (addr : Bool) (s : FieldVals) (k : String) (v : DynVal)
    (msg : String) (dc : Bool) (s2 : FieldVals) (h : applyStep addr s k v = .stErr msg dc s2) :
    ∀ k2, k2 ≠ k → findFieldV s2 k2 = findFieldV s k2 := by
  intro k2 hk
  unfold applyStep at h
  repeat' split at h
  all_goals (try cases h)
  all_goals (first | rfl | (exact findFieldV_set_ne s k k2 _ hk))

/-- Apply writes (at most) the fields named by the patch mapping: a name
no patch entry carries resolves to the same value before and after the
call, whether the call succeeded or returned an error. -/
theorem applyEntries_frame : (p : Patch) → ∀ (addr c : Bool) (s : FieldVals)
    (c2 : Bool) (e : Option String) (s2 : FieldVals),
    applyEntries addr c s p = .res c2 e s2 →
    ∀ k2, patchHasKey p k2 = false → findFieldV s2 k2 = findFieldV s k2
  | .pnil, addr, c, s, c2, e, s2, h, k2, _ => by
    unfold applyEntries at h
    cases h
    rfl
  | .pcons k v rest, addr, c, s, c2, e, s2, h, k2, hk => by
    have hk1 : ¬ (k == k2) = true := fun hb => by simp [patchHasKey, hb] at hk
    have hkr : patchHasKey rest k2 = false := by
      simp [patchHasKey] at hk
      exact hk.2
    have hne : k2 ≠ k := fun he => hk1 (by simp [he])
    unfold applyEntries at h
    cases hs : applyStep addr s k v with
    | stPanic => rw [hs] at h; cases h
    | stErr msg dc s3 =>
      rw [hs] at h
      cases h
      exact applyStep_err_frame addr s k v msg dc _ hs k2 hne
    | stOk dc s3 =>
      rw [hs] at h
      calc findFieldV s2 k2
          = findFieldV s3 k2 := applyEntries_frame rest addr (c || dc) s3 c2 e s2 h k2 hkr
        _ = findFieldV s k2 := applyStep_ok_frame addr s k v dc s3 hs k2 hne
termination_by structural p => p

/-- The raw dirty check of one entry depends on the struct only through
the resolution of that entry's key. -/
theorem rawEntry_congr (s1 s2 : FieldVals) (k : String) (v : DynVal)
    (h : findFieldV s2 k = findFieldV s1 k) : rawEntry s2 k v = rawEntry s1 k v := by
  unfold rawEntry
  rw [h]

/-- The raw dirty check of a patch depends on the struct only through
the resolution of the patch's keys. -/
theorem rawChanged_congr : (p : Patch) → ∀ (s1 s2 : FieldVals),
    (∀ k2, patchHasKey p k2 = true → findFieldV s2 k2 = findFieldV s1 k2) →
    rawChanged s2 p = rawChanged s1 p
  | .pnil, _, _, _ => rfl
  | .pcons k v rest, s1, s2, h => by
    have hk : findFieldV s2 k = findFieldV s1 k := h k (by simp [patchHasKey])
    have hr : ∀ k2, patchHasKey rest k2 = true → findFieldV s2 k2 = findFieldV s1 k2 :=
      fun k2 hh => h k2 (by simp [patchHasKey, hh])
    simp [rawChanged, rawEntry_congr s1 s2 k v hk, rawChanged_congr rest s1 s2 hr]
termination_by structural p => p

/-- A key occurring in a patch differs from any key the patch avoids. -/
theorem keyNotIn_hasKey_ne : (p : Patch) → ∀ (k k2 : String), keyNotIn k p = true →
    patchHasKey p k2 = true → k2 ≠ k
  | .pnil, _, _, _, hh => by cases hh
  | .pcons k1 v rest, k, k2, hn, hh => by
    simp [keyNotIn] at hn
    simp [patchHasKey] at hh
    rcases hh with hh | hh
    · rw [← hh]; exact fun he => hn.1 he
    · exact keyNotIn_hasKey_ne rest k k2 hn.2 hh
termination_by structural p => p

/-- A mapping value is convertible to no destination type. -/
theorem canConvert_dMap (m : Patch) (t : GoTy) : canConvert (.dMap m) t = some false := by
  cases t <;> rfl

set_option maxHeartbeats 1000000

mutual
/-- On a successful step, the change-flag delta the entry contributed is
exactly the raw dirty check of that entry against the pre-step struct. -/
theorem applyStep_changed : (v : DynVal) → ∀ (addr : Bool) (s : FieldVals) (k : String)
    (dc : Bool) (s2 : FieldVals), wfVal v = true →
    applyStep addr s k v = .stOk dc s2 → dc = rawEntry s k v
  | .dMap m, addr, s, k, dc, s2, hwf, h => by
    simp only [wfVal] at hwf
    simp only [applyStep] at h
    split at h
    · rename_i hf
      cases h
      simp [rawEntry, hf]
    · rename_i fld hf
      split at h
      · -- fld = vPtrNil pt
        rename_i pt
        split at h
        · -- pt = tyStruct fts
          rename_i fts
          split at h
          · cases h
          · cases h
          · rename_i ic z hn
            split at h
            · cases h
              simpa [rawEntry, hf] using applyEntries_changed m true false (zeroFields fts) _ _ hwf hn
            · cases h
        · cases h
      · -- fld = vStruct inner
        rename_i inner
        split at h
        · cases h
        · cases h
        · rename_i ic z hn
          cases h
          simpa [rawEntry, hf] using applyEntries_changed m false false inner _ _ hwf hn
      · -- fld = vPtrSome pt pv
        rename_i pt pv
        split at h
        · -- pv = vStruct inner
          rename_i inner
          split at h
          · cases h
          · cases h
          · rename_i ic z hn
            cases h
            simpa [rawEntry, hf] using applyEntries_changed m true false inner _ _ hwf hn
        · simp [canConvert_dMap] at h
      · -- fld = vSlice
        simp [dynLen] at h
      · -- fld scalar
        simp [canConvert_dMap] at h
  | .dNull, addr, s, k, dc, s2, hwf, h => by
    simp only [applyStep] at h
    split at h
    · rename_i hf; cases h; simp [rawEntry, hf]
    · rename_i fld hf
      repeat' split at h
      all_goals (try cases h)
      all_goals simp [rawEntry, hf]
  | .dBool b, addr, s, k, dc, s2, hwf, h => by
    simp only [applyStep] at h
    split at h
    · rename_i hf; cases h; simp [rawEntry, hf]
    · rename_i fld hf
      repeat' split at h
      all_goals (try cases h)
      all_goals simp [rawEntry, hf]
  | .dNum x, addr, s, k, dc, s2, hwf, h => by
    simp only [applyStep] at h
    split at h
    · rename_i hf; cases h; simp [rawEntry, hf]
    · rename_i fld hf
      repeat' split at h
      all_goals (try cases h)
      all_goals simp [rawEntry, hf]
  | .dStr sv, addr, s, k, dc, s2, hwf, h => by
    simp only [applyStep] at h
    split at h
    · rename_i hf; cases h; simp [rawEntry, hf]
    · rename_i fld hf
      repeat' split at h
      all_goals (try cases h)
      all_goals simp [rawEntry, hf]
  | .dPtr pv, addr, s, k, dc, s2, hwf, h => by
    simp only [applyStep] at h
    split at h
    · rename_i hf; cases h; simp [rawEntry, hf]
    · rename_i fld hf
      repeat' split at h
      all_goals (try cases h)
      all_goals simp [rawEntry, hf]
  | .dArr es, addr, s, k, dc, s2, hwf, h => by
    simp only [applyStep] at h
    split at h
    · rename_i hf; cases h; simp [rawEntry, hf]
    · rename_i fld hf
      repeat' split at h
      all_goals (try cases h)
      all_goals simp [rawEntry, hf]
termination_by structural v => v

/-- On an error-free run of the Apply loop, the returned change flag is
the initial flag OR-ed with the raw dirty check of the whole patch
against the pre-call struct (the patch keys must be pairwise distinct,
as the keys of a Go map are). -/
theorem applyEntries_changed : (p : Patch) → ∀ (addr c : Bool) (s : FieldVals)
    (c2 : Bool) (s2 : FieldVals), wfPatch p = true →
    applyEntries addr c s p = .res c2 none s2 → c2 = (c || rawChanged s p)
  | .pnil, addr, c, s, c2, s2, hwf, h => by
    simp only [applyEntries] at h
    cases h
    simp [rawChanged]
  | .pcons k v rest, addr, c, s, c2, s2, hwf, h => by
    simp only [wfPatch, Bool.and_eq_true] at hwf
    obtain ⟨⟨hni, hwv⟩, hwr⟩ := hwf
    simp only [applyEntries] at h
    split at h
    · cases h
    · cases h
    · rename_i dc s3 hs
      have hdc : dc = rawEntry s k v := applyStep_changed v addr s k dc s3 hwv hs
      have hrec : c2 = ((c || dc) || rawChanged s3 rest) :=
        applyEntries_changed rest addr (c || dc) s3 c2 s2 hwr h
      have hframe : rawChanged s3 rest = rawChanged s rest :=
        rawChanged_congr rest s s3
          (fun k2 hh => applyStep_ok_frame addr s k v dc s3 hs k2 (keyNotIn_hasKey_ne rest k k2 hni hh))
      rw [hrec, hframe, hdc]
      simp [rawChanged, Bool.or_assoc]
termination_by structural p => p
end

/-- A patch key that resolves to no field is skipped: the step succeeds
with no change and no write. -/
theorem applyStep_none (addr : Bool) (s : FieldVals) (k : String) (v : DynVal)
    (h : findFieldV s k = none) : applyStep addr s k v = .stOk false s := by
  cases v <;> simp [applyStep, h]

/-- A patch none of whose keys resolves to a field leaves the struct
untouched and contributes no change and no error. -/
theorem applyEntries_unknown : (p : Patch) → ∀ (addr c : Bool) (s : FieldVals),
    allKeysUnknown s p = true → applyEntries addr c s p = .res c none s
  | .pnil, addr, c, s, _ => by simp [applyEntries]
  | .pcons k v rest, addr, c, s, hall => by
    simp only [allKeysUnknown, Bool.and_eq_true] at hall
    obtain ⟨h1, h2⟩ := hall
    have h1b : findFieldV s k = none := by
      cases hx : findFieldV s k with
      | none => rfl
      | some w => rw [hx] at h1; cases h1
    simp [applyEntries, applyStep_none addr s k v h1b, applyEntries_unknown rest addr c s h2]
termination_by structural p => p

/-- Composition of the Apply loop: a run over a concatenation first runs
the prefix; when the prefix succeeds, the run continues on the suffix
from the prefix's final state and accumulated flag. -/
theorem applyEntries_append : (p : Patch) → ∀ (q : Patch) (addr c : Bool) (s : FieldVals)
    (c2 : Bool) (s2 : FieldVals), applyEntries addr c s p = .res c2 none s2 →
    applyEntries addr c s (pappend p q) = applyEntries addr c2 s2 q
  | .pnil, q, addr, c, s, c2, s2, h => by
    simp only [applyEntries] at h
    cases h
    simp [pappend]
  | .pcons k v rest, q, addr, c, s, c2, s2, h => by
    simp only [applyEntries] at h
    split at h
    · cases h
    · cases h
    · rename_i dc s3 hs
      simp only [pappend, applyEntries, hs]
      exact applyEntries_append rest q addr (c || dc) s3 c2 s2 h
termination_by structural p => p

/-- When every element of the patch array converts to the element type,
the sequence loop produces exactly the element-wise conversion. -/
theorem sliceLoop_all_conv (t : GoTy) (k : String) : (es : DynList) →
    allScalarConv t es = true → sliceLoop k t t es = .sok (convList t es)
  | .dnil, _ => by simp [sliceLoop, convList]
  | .dcons e rest, hall => by
    simp only [allScalarConv, Bool.and_eq_true] at hall
    obtain ⟨h1, h2⟩ := hall
    have h1b : canConvert e t = some true := by simpa using h1
    cases e with
    | dMap m => rw [canConvert_dMap] at h1b; cases h1b
    | dNull => cases h1b
    | dBool b => simp [sliceLoop, h1b, tyEq_refl, sliceLoop_all_conv t k rest h2, convList]
    | dNum x => simp [sliceLoop, h1b, tyEq_refl, sliceLoop_all_conv t k rest h2, convList]
    | dStr sv => simp [sliceLoop, h1b, tyEq_refl, sliceLoop_all_conv t k rest h2, convList]
    | dPtr pv => simp [sliceLoop, h1b, tyEq_refl, sliceLoop_all_conv t k rest h2, convList]
    | dArr es2 => simp [sliceLoop, h1b, tyEq_refl, sliceLoop_all_conv t k rest h2, convList]
termination_by structural es => es

/-- Element-wise conversion preserves length. -/
theorem goLength_convList (t : GoTy) : (es : DynList) →
    goLength (convList t es) = dynLength es
  | .dnil => rfl
  | .dcons e rest => by simp [convList, goLength, dynLength, goLength_convList t rest]
termination_by structural es => es

/-- findField is: the first field, in declaration order, that is
exported and whose external name (the json tag up to a comma, or the Go
identifier when no tag is declared) equals the requested name. -/
theorem findFieldV_spec : (s : FieldVals) → ∀ (name : String),
    findFieldV s name = Option.map (fun f => f.2.2.2)
      ((fieldsList s).find? (fun f => extName f.1 f.2.1 == name && f.2.2.1))
  | .fnil, _ => rfl
  | .fcons n tag ex v rest, name => by
    by_cases hm : (extName n tag == name && ex) = true
    · simp [findFieldV, hm, fieldsList, List.find?]
    · simp [findFieldV, hm, fieldsList, List.find?, findFieldV_spec rest name]
termination_by structural s => s

/-- Claim C1, counterexample: a JSON number equal to the current value of
an integer field still reports changed = true, because the dirty check
compares the raw float64 against the typed int before conversion; the
call returns no error and the struct is unchanged, so changed is true
although no field was set to a different value. -/
theorem c1_counterexample :
    applyGo (salaryRec 123) (.pcons "salary" (.dNum 123) .pnil)
      = .res true none (salaryRec 123) := rfl

/-- Claim C1 (amended): for a patch whose mapping keys are pairwise
distinct, when Apply returns without error the change flag equals the
raw dirty check rawChanged: true iff some processed entry has a raw
dynamic value that is not deeply equal to the resolved field's pre-call
value, recursing through nested record mappings (against the pointee,
the by-value copy, or the fresh zero instance a nil pointer field
receives).  Because the comparison is raw-versus-typed, changed can be
true although every field keeps its value after conversion, and a
nil-pointer allocation alone never sets changed. -/
theorem c1_changed_eq_rawChanged (s : FieldVals) (p : Patch) (c : Bool) (s2 : FieldVals)
    (hwf : wfPatch p = true) (h : applyGo s p = .res c none s2) :
    c = rawChanged s p := by
  simpa using applyEntries_changed p true false s c s2 hwf h

/-- Witness for the amended claim C1 at a concrete input. -/
theorem c1_witness :
    (true : Bool) = rawChanged (salaryRec 123) (.pcons "salary" (.dNum 200) .pnil) :=
  c1_changed_eq_rawChanged (salaryRec 123) (.pcons "salary" (.dNum 200) .pnil) true
    (salaryRec 200) rfl rfl

/-- Claim C4: the current code does not dereference a pointer-shaped
patch value (the reflect.Indirect call present in an earlier revision is
gone), so a pointer to 100 against an int field fails the CanConvert
check and returns the conversion error, leaving the field unchanged -
although the doc comment on Apply promises that pointer values are
accepted. -/
theorem c4_pointer_value_rejected :
    applyGo (salaryRec 5) (.pcons "salary" (.dPtr (.dNum 100)) .pnil)
      = .res true (some "can\x27t convert salary to dst type") (salaryRec 5) := rfl

/-- Claim C8: a patch none of whose keys resolves to an
externally-visible field - in particular the empty patch - returns
changed = false with no error and leaves every field of the target equal
to its pre-call value. -/
theorem c8_unknown_keys (s : FieldVals) (p : Patch)
    (h : allKeysUnknown s p = true) : applyGo s p = .res false none s :=
  applyEntries_unknown p true false s h

/-- Witness for claim C8: a patch of unknown keys, and the empty patch. -/
theorem c8_witness :
    applyGo anakinRec (.pcons "middle_name" (.dStr "Sheev")
        (.pcons "perk" (.dStr "pilot") .pnil))
      = .res false none anakinRec
    ∧ applyGo anakinRec .pnil = .res false none anakinRec :=
  ⟨c8_unknown_keys anakinRec _ rfl, c8_unknown_keys anakinRec .pnil rfl⟩

/-- Claim C9: field resolution walks the declared fields in definition
order and returns the first field that is exported and whose external
name - the json tag truncated at the first comma, or the Go identifier
when no tag is declared - equals the requested name; a match on a
non-exported field is no match and the search continues past it. -/
theorem c9_field_resolution (s : FieldVals) (name : String) :
    findFieldV s name = Option.map (fun f => f.2.2.2)
      ((fieldsList s).find? (fun f => extName f.1 f.2.1 == name && f.2.2.1)) :=
  findFieldV_spec s name

/-- Claim C10: a nil patch value whose key resolves to a field always
panics - at reflect.Value.Len for a sequence field and at
reflect.Value.CanConvert otherwise - rather than returning an error. -/
theorem c10_null_value_panics (s : FieldVals) (k : String) (fld : GoVal)
    (hf : findFieldV s k = some fld) :
    applyGo s (.pcons k .dNull .pnil) = .panicked := by
  cases fld <;> simp [applyGo, applyEntries, applyStep, hf, dynLen, canConvert]

/-- Witness for claim C10 at a concrete input. -/
theorem c10_witness : applyGo (salaryRec 123) (.pcons "salary" .dNull .pnil) = .panicked :=
  c10_null_value_panics (salaryRec 123) "salary" (.vInt "int" 123) rfl

/-- Claim C2: a nil pointer-to-record field patched with a nested
mapping receives a freshly allocated zero instance of the pointee type
to which the nested mapping is applied recursively; the returned change
flag is exactly what the recursive apply reported (the allocation alone
does not set it), and every sub-field whose key is absent from the
nested mapping still resolves to its zero value. -/
theorem c2_nil_pointer_alloc (s : FieldVals) (k : String) (fts : FieldTys) (m : Patch)
    (ic : Bool) (z : FieldVals)
    (hf : findFieldV s k = some (.vPtrNil (.tyStruct fts)))
    (hm : applyEntries true false (zeroFields fts) m = .res ic none z) :
    applyGo s (.pcons k (.dMap m) .pnil)
        = .res ic none (setFieldV s k (.vPtrSome (.tyStruct fts) (.vStruct z)))
      ∧ ∀ k2, patchHasKey m k2 = false →
          findFieldV z k2 = findFieldV (zeroFields fts) k2 := by
  constructor
  · simp [applyGo, applyEntries, applyStep, hf, hm]
  · exact fun k2 hk => applyEntries_frame m true false (zeroFields fts) ic none z hm k2 hk

/-- Witness for claim C2 at the input of TestApplyNilSubStructs: the
field absent from the nested mapping keeps its zero value. -/
theorem c2_witness :
    applyGo contactNilRec (.pcons "contact" (.dMap contactPatch) .pnil)
        = .res true none (setFieldV contactNilRec "contact"
            (.vPtrSome (.tyStruct personT) (.vStruct vaderZ)))
      ∧ findFieldV vaderZ "position" = findFieldV (zeroFields personT) "position" :=
  ⟨(c2_nil_pointer_alloc contactNilRec "contact" personT contactPatch true vaderZ rfl rfl).1,
   (c2_nil_pointer_alloc contactNilRec "contact" personT contactPatch true vaderZ rfl rfl).2
     "position" rfl⟩

/-- Claim C3, counterexample: a number against a sequence-typed field
does not return an error - reflect.Value.Len runs on the value before
the []interface{} assertion and panics on a non-length kind. -/
theorem c3_counterexample :
    applyGo charsRec (.pcons "characters" (.dNum 5) .pnil) = .panicked := rfl

/-- Claim C3 (amended): against a sequence-typed field, a patch value of
string or mapping shape (a kind with a length) returns the error naming
the field and leaves the destination sequence unchanged, while a value
of nil, number, bool or pointer shape (no length) panics at
reflect.Value.Len before the type mismatch can be reported. -/
theorem c3_nonsequence_value (s : FieldVals) (k : String) (t : GoTy) (old : GoVals)
    (v : DynVal) (hf : findFieldV s k = some (.vSlice t old)) :
    ((∃ sv, v = .dStr sv) ∨ (∃ m, v = .dMap m) →
       applyGo s (.pcons k v .pnil) = .res true (some (k ++ " is not an array")) s)
    ∧ (dynLen v = none → applyGo s (.pcons k v .pnil) = .panicked) := by
  constructor
  · rintro (⟨sv, rfl⟩ | ⟨m, rfl⟩) <;>
      simp [applyGo, applyEntries, applyStep, hf, dynLen, deepEq]
  · intro hl
    cases v <;> (try (simp [dynLen] at hl)) <;>
      simp [applyGo, applyEntries, applyStep, hf, dynLen]

/-- Witness for the amended claim C3: a string and a nil value against a
[]string field. -/
theorem c3_witness :
    applyGo charsRec (.pcons "characters" (.dStr "x") .pnil)
        = .res true (some "characters is not an array") charsRec
    ∧ applyGo charsRec (.pcons "characters" .dNull .pnil) = .panicked :=
  ⟨(c3_nonsequence_value charsRec "characters" .tyStr (.gcons (.vStr "Anakin") .gnil)
      (.dStr "x") rfl).1 (Or.inl ⟨"x", rfl⟩),
   (c3_nonsequence_value charsRec "characters" .tyStr (.gcons (.vStr "Anakin") .gnil)
      .dNull rfl).2 rfl⟩

/-- Claim C5: a sequence-typed field patched with an array all of whose
elements convert to the destination element type is replaced by the
brand-new element-wise converted sequence, whose length is exactly the
patch array's length; nothing of the prior sequence is retained. -/
theorem c5_sequence_replace (s : FieldVals) (k : String) (t : GoTy) (old : GoVals)
    (es : DynList) (hf : findFieldV s k = some (.vSlice t old))
    (hconv : allScalarConv t es = true) :
    applyGo s (.pcons k (.dArr es) .pnil)
        = .res true none (setFieldV s k (.vSlice t (convList t es)))
      ∧ goLength (convList t es) = dynLength es := by
  constructor
  · simp [applyGo, applyEntries, applyStep, hf, dynLen, sliceLoop_all_conv t k es hconv, deepEq]
  · exact goLength_convList t es

/-- Witness for claim C5 at the input of TestUpdateArrays: a one-element
[]string replaced by a two-element patch array. -/
theorem c5_witness :
    applyGo charsRec (.pcons "characters"
        (.dArr (.dcons (.dStr "Darth") (.dcons (.dStr "Luke") .dnil))) .pnil)
      = .res true none (setFieldV charsRec "characters"
          (.vSlice .tyStr (convList .tyStr (.dcons (.dStr "Darth") (.dcons (.dStr "Luke") .dnil)))))
    ∧ goLength (convList .tyStr (.dcons (.dStr "Darth") (.dcons (.dStr "Luke") .dnil))) = 2 :=
  c5_sequence_replace charsRec "characters" .tyStr (.gcons (.vStr "Anakin") .gnil)
    (.dcons (.dStr "Darth") (.dcons (.dStr "Luke") .dnil)) rfl rfl

/-- Claim C6, counterexample: when the destination element type is a
by-value record (not a pointer), a mapping element panics - the freshly
allocated value is a pointer to the record type, and storing it into the
record-typed slot of the new sequence panics at reflect.Value.Set. -/
theorem c6_counterexample :
    applyGo byValueSliceRec (.pcons "ps" (.dArr (.dcons (.dMap .pnil) .dnil)) .pnil)
      = .panicked := rfl

/-- Claim C6 (amended): for a sequence field whose element type is
pointer-to-record, a mapping element makes Apply allocate a fresh zero
instance of the pointee record type, apply the nested mapping to it
recursively, and store the pointer at that position of the new sequence;
an error from the recursive apply aborts the whole call, leaving the
destination field unchanged.  (For a by-value record element type the
store panics instead.) -/
theorem c6_record_elements (s : FieldVals) (k : String) (fts : FieldTys) (old : GoVals)
    (m : Patch) (hf : findFieldV s k = some (.vSlice (.tyPtr (.tyStruct fts)) old)) :
    (∀ ic z, applyEntries true false (zeroFields fts) m = .res ic none z →
       applyGo s (.pcons k (.dArr (.dcons (.dMap m) .dnil)) .pnil)
         = .res true none (setFieldV s k (.vSlice (.tyPtr (.tyStruct fts))
             (.gcons (.vPtrSome (.tyStruct fts) (.vStruct z)) .gnil))))
    ∧ (∀ ic msg z, applyEntries true false (zeroFields fts) m = .res ic (some msg) z →
       applyGo s (.pcons k (.dArr (.dcons (.dMap m) .dnil)) .pnil)
         = .res true (some msg) s) := by
  constructor
  · intro ic z hm
    simp [applyGo, applyEntries, applyStep, hf, dynLen, sliceLoop, hm, tyEq_refl, deepEq]
  · intro ic msg z hm
    simp [applyGo, applyEntries, applyStep, hf, dynLen, sliceLoop, hm, deepEq]

/-- Witness for the amended claim C6: a succeeding and a failing nested
mapping element against a []*person field. -/
theorem c6_witness :
    applyGo ptrSliceRec (.pcons "ps"
        (.dArr (.dcons (.dMap (.pcons "first_name" (.dStr "Luke") .pnil)) .dnil)) .pnil)
      = .res true none (setFieldV ptrSliceRec "ps"
          (.vSlice (.tyPtr (.tyStruct personT))
            (.gcons (.vPtrSome (.tyStruct personT) (.vStruct
              (.fcons "FirstName" "first_name" true (.vStr "Luke")
              (.fcons "LastName" "last_name" true (.vStr "")
              (.fcons "Position" "position" true (.vStr "") .fnil))))) .gnil)))
    ∧ applyGo ptrSliceRec (.pcons "ps"
        (.dArr (.dcons (.dMap (.pcons "first_name" (.dNum 5) .pnil)) .dnil)) .pnil)
      = .res true (some "can\x27t convert first_name to dst type") ptrSliceRec :=
  ⟨(c6_record_elements ptrSliceRec "ps" personT .gnil
      (.pcons "first_name" (.dStr "Luke") .pnil) rfl).1 true _ rfl,
   (c6_record_elements ptrSliceRec "ps" personT .gnil
      (.pcons "first_name" (.dNum 5) .pnil) rfl).2 true
      "can\x27t convert first_name to dst type" (zeroFields personT) rfl⟩

/-- Claim C7: when, after a successfully applied prefix of the patch, an
entry supplies a scalar value that is not convertible to its scalar
destination field, the whole call returns the conversion error naming
that field; the returned struct is exactly the state after the prefix -
the failing field is unchanged, earlier mutations are kept, and the
remaining entries are not processed. -/
theorem c7_conversion_failure (p1 rest : Patch) (s s1 : FieldVals) (c : Bool)
    (k : String) (v : DynVal) (fld : GoVal)
    (hpre : applyGo s p1 = .res c none s1)
    (hf : findFieldV s1 k = some fld)
    (hsv : isScalarShape v = true)
    (hsf : isScalarField fld = true)
    (hcv : canConvert v (typeOfV fld) = some false) :
    applyGo s (pappend p1 (.pcons k v rest))
      = .res (c || !(deepEq v fld)) (some ("can\x27t convert " ++ k ++ " to dst type")) s1 := by
  have hap := applyEntries_append p1 (.pcons k v rest) true false s c s1 hpre
  rw [applyGo] at hpre ⊢
  rw [hap]
  cases v <;> (try (simp [isScalarShape] at hsv)) <;>
    cases fld <;> (try (simp [isScalarField] at hsf)) <;>
      simp [applyEntries, applyStep, hf, hcv, typeOfV] at hcv ⊢

/-- Witness for claim C7: the name entry is applied, the non-numeric
salary entry fails, the trailing entry is never processed. -/
theorem c7_witness :
    applyGo nameSalaryRec
        (pappend (.pcons "name" (.dStr "Darth") .pnil)
          (.pcons "salary" (.dStr "euros") (.pcons "name" (.dStr "Zed") .pnil)))
      = .res (true || !(deepEq (.dStr "euros") (.vInt "int" 123)))
          (some "can\x27t convert salary to dst type")
          (.fcons "Name" "name" true (.vStr "Darth")
          (.fcons "Salary" "salary" true (.vInt "int" 123) .fnil)) :=
  c7_conversion_failure (.pcons "name" (.dStr "Darth") .pnil)
    (.pcons "name" (.dStr "Zed") .pnil) nameSalaryRec
    (.fcons "Name" "name" true (.vStr "Darth")
     (.fcons "Salary" "salary" true (.vInt "int" 123) .fnil))
    true "salary" (.dStr "euros") (.vInt "int" 123) rfl rfl rfl rfl rfl
